import Mathlib

/-!
Shallow embedding of the versioned object memory of Poietic-python
(modules `holon/db/identity.py`, `holon/db/object.py`, `holon/db/component.py`,
`holon/db/mutable_frame.py`, `holon/db/database.py`, `poietic/db/version.py`,
`poietic/db/frame.py`, `holon/graph/graph.py`).

Python reference semantics are made explicit: object snapshots live in a heap
(`Memory.heap`, a list indexed by address); a frame stores addresses, so two
frames holding the same address hold the *same* Python instance.  Python dicts
are embedded as insertion-ordered association lists (`dictGet`/`dictSet`/
`dictDel`), matching dict iteration order and in-place replacement on key
collision.  Operations that mutate state before raising return the partially
mutated memory together with the error (`MResult`), matching the fact that a
Python exception does not roll back earlier attribute assignments.
-/

namespace Poietic

/-- Error classes raised by the embedded code: `assert` failures,
`RuntimeError`, dict `KeyError`, and the library's `IDError(id)`. -/
inductive PErr where
  | assertionError
  | runtimeError
  | keyError
  | idError (id : Nat)
deriving DecidableEq, Repr

instance exceptDecEq {ε α : Type} [DecidableEq ε] [DecidableEq α] :
    DecidableEq (Except ε α) := fun x y =>
  match x, y with
  | .ok a, .ok b =>
      match decEq a b with
      | isTrue h => isTrue (h ▸ rfl)
      | isFalse h => isFalse fun hh => h (Except.ok.inj hh)
  | .error a, .error b =>
      match decEq a b with
      | isTrue h => isTrue (h ▸ rfl)
      | isFalse h => isFalse fun hh => h (Except.error.inj hh)
  | .ok _, .error _ => isFalse fun hh => Except.noConfusion hh
  | .error _, .ok _ => isFalse fun hh => Except.noConfusion hh

/-- `VersionState` from `poietic/db/version.py` (the module the `db` package
imports as `.version`): lifecycle state of snapshots and frames. -/
inductive VersionState where
  | unstable
  | transient
  | frozen
deriving DecidableEq, Repr

/-- `VersionState.is_mutable`: `UNSTABLE` or `TRANSIENT`. -/
def VersionState.is_mutable : VersionState → Bool
  | .unstable => true
  | .transient => true
  | .frozen => false

/-- `VersionState.can_derive`: `TRANSIENT` or `FROZEN`. -/
def VersionState.can_derive : VersionState → Bool
  | .unstable => false
  | .transient => true
  | .frozen => true

/-- A component instance (`holon/db/component.py`): `kind` is the Python class
of the component (component sets key on it), `addr` is the Python object
identity of the instance (the core never copies component instances, so equal
`addr` means the same instance), `value` is its payload. -/
structure Comp where
  kind : Nat
  addr : Nat
  value : Nat
deriving DecidableEq, Repr

/-- `ComponentSet.set`: `self._components[component.__class__] = component` —
replace in place when the kind is present (dict keeps the slot position),
append otherwise. -/
def csSet (cs : List Comp) (c : Comp) : List Comp :=
  if cs.any (fun x => x.kind == c.kind) then
    cs.map (fun x => if x.kind == c.kind then c else x)
  else
    cs ++ [c]

/-- `ComponentSet.__init__(components)`: starts empty and `set`s each given
component in order. -/
def csOfList (l : List Comp) : List Comp :=
  l.foldl csSet []

/-- `ComponentSet.has(component_type)`. -/
def csHas (cs : List Comp) (kind : Nat) : Bool :=
  cs.any (fun x => x.kind == kind)

/-- `ComponentSet.get(component_type)`: `KeyError` when absent. -/
def csGet (cs : List Comp) (kind : Nat) : Option Comp :=
  cs.find? (fun x => x.kind == kind)

/-- Structural subtype of a snapshot: `Node` (no structural dependencies) or
`Edge` with origin and target object IDs (`holon/graph/graph.py`). -/
inductive StructuralType where
  | node
  | edge (origin target : Nat)
deriving DecidableEq, Repr

/-- The data of one `ObjectSnapshot` (`holon/db/object.py`): object ID,
snapshot ID, lifecycle state, optional object type tag, structural subtype
and component set. -/
structure SnapshotData where
  id : Nat
  snapshot_id : Nat
  state : VersionState
  otype : Option Nat
  stype : StructuralType
  comps : List Comp
deriving DecidableEq, Repr

instance : Inhabited SnapshotData :=
  ⟨{ id := 0, snapshot_id := 0, state := .unstable, otype := none,
     stype := .node, comps := [] }⟩

/-- `ObjectSnapshot.structural_dependencies`: `[]` for nodes,
`[origin, target]` for edges (`holon/graph/graph.py` lines 82–87). -/
def SnapshotData.structural_dependencies (s : SnapshotData) : List Nat :=
  match s.stype with
  | .node => []
  | .edge o t => [o, t]

/-- Python `id or self.id`: the override is ignored when it is falsy
(`None` maps to `none`; the integer `0` is falsy as well). -/
def pyOrId (idOpt : Option Nat) (dflt : Nat) : Nat :=
  match idOpt with
  | some i => if i = 0 then dflt else i
  | none => dflt

/-- `derive(snapshot_id, id?)`.  For plain objects and nodes this is
`ObjectSnapshot.derive` (`holon/db/object.py` lines 165–204): assert
`state.can_derive`, build a new snapshot with a fresh `ComponentSet` made from
`self.components.as_list()` (the same component instances), state `UNSTABLE`,
and `obj.type = self.type`.  For edges this is the override in
`holon/graph/graph.py` lines 71–80: it rebuilds the edge directly with the
same origin and target and `components=self.components.as_list()`, performs
no state assertion, and does not pass `type` to the constructor, so the
derived edge's type is `None`. -/
def SnapshotData.derive (s : SnapshotData) (snapshot_id : Nat)
    (idOpt : Option Nat) : Except PErr SnapshotData :=
  match s.stype with
  | .node =>
      if s.state.can_derive then
        .ok { id := pyOrId idOpt s.id, snapshot_id := snapshot_id,
              state := .unstable, otype := s.otype, stype := .node,
              comps := csOfList s.comps }
      else
        .error .assertionError
  | .edge o t =>
      .ok { id := pyOrId idOpt s.id, snapshot_id := snapshot_id,
            state := .unstable, otype := none, stype := .edge o t,
            comps := csOfList s.comps }

/-- `ObjectSnapshot.freeze`: sets the state to `FROZEN` from any state. -/
def SnapshotData.freezeSnap (s : SnapshotData) : SnapshotData :=
  { s with state := .frozen }

/-- Python dict lookup (`d[k]` / `d.get(k)`), on an insertion-ordered
association list (a dict never holds two entries with the same key). -/
def dictGet {α : Type} : List (Nat × α) → Nat → Option α
  | [], _ => none
  | p :: rest, k => if p.1 = k then some p.2 else dictGet rest k

/-- Python `k in d`. -/
def dictContains {α : Type} (l : List (Nat × α)) (k : Nat) : Bool :=
  (dictGet l k).isSome

/-- Python `d[k] = v`: replace in place when present, append otherwise. -/
def dictSet {α : Type} : List (Nat × α) → Nat → α → List (Nat × α)
  | [], k, v => [(k, v)]
  | p :: rest, k, v =>
      if p.1 = k then (k, v) :: rest else p :: dictSet rest k v

/-- Python `del d[k]`. -/
def dictDel {α : Type} : List (Nat × α) → Nat → List (Nat × α)
  | [], _ => []
  | p :: rest, k => if p.1 = k then rest else p :: dictDel rest k

/-- Python `set.add`. -/
def setAdd (l : List Nat) (x : Nat) : List Nat :=
  if l.contains x then l else l ++ [x]

/-- Python `set.remove` minus the `KeyError` (callers check membership). -/
def setRemove (l : List Nat) (x : Nat) : List Nat :=
  l.filter (fun y => y != x)

/-- Python `list.index(v)`: index of the first occurrence. -/
def listIndex : List Nat → Nat → Option Nat
  | [], _ => none
  | x :: xs, v => if x = v then some 0 else (listIndex xs v).map (fun i => i + 1)

/-- `StableFrame` (`poietic/db/frame.py`): version plus an insertion-ordered
map from object ID to the heap address of the (frozen) snapshot. -/
structure StableFrame where
  version : Nat
  objects : List (Nat × Nat)
deriving DecidableEq, Repr

/-- `MutableFrame` (`holon/db/mutable_frame.py`): `_snapshots` maps object ID
to `FrameSnapshotReference(snapshot, owned)` (address plus owned flag);
`_snapshot_ids`, `_removed_objects` and `_derived_objects` as in the source. -/
structure MutableFrame where
  version : Nat
  state : VersionState
  snapshots : List (Nat × (Nat × Bool))
  snapshot_ids : List Nat
  removed_objects : List Nat
  derived_objects : List (Nat × Nat)
deriving DecidableEq, Repr

/-- `ObjectMemory` (`holon/db/database.py`): snapshot heap (making Python
object identity explicit), the single `SequentialIDGenerator` (`gen` is its
`_current`, initially `1`), stable and mutable frame maps, version history and
current-version cursor. -/
structure Memory where
  heap : List SnapshotData
  gen : Nat
  stable_frames : List (Nat × StableFrame)
  mutable_frames : List (Nat × MutableFrame)
  version_history : List Nat
  current_version_index : Option Nat
deriving DecidableEq, Repr

/-- Dereference a heap address. -/
def Memory.heapGet (m : Memory) (a : Nat) : SnapshotData :=
  m.heap.getD a default

/-- Result of a memory operation: Python exceptions do not roll back the
attribute assignments already performed, so the failure case carries the
memory state at the moment the exception was raised. -/
inductive MResult (α : Type) where
  | ok (m : Memory) (val : α)
  | fail (e : PErr) (m : Memory)
deriving DecidableEq, Repr

/-- The memory state after the operation (final state even on failure). -/
def MResult.mem {α : Type} : MResult α → Memory
  | .ok m _ => m
  | .fail _ m => m

/-- Whether the operation completed without raising. -/
def MResult.isOk {α : Type} : MResult α → Bool
  | .ok _ _ => true
  | .fail _ _ => false

/-- The returned value, when the operation completed. -/
def MResult.toVal {α : Type} : MResult α → Option α
  | .ok _ v => some v
  | .fail _ _ => none

/-- The raised error, when the operation failed. -/
def MResult.errOf {α : Type} : MResult α → Option PErr
  | .ok _ _ => none
  | .fail e _ => some e

/-- `SequentialIDGenerator.next()`: return `_current`, then increment. -/
def genNext (m : Memory) : Nat × Memory :=
  (m.gen, { m with gen := m.gen + 1 })

/-- `SequentialIDGenerator.mark_used(id)`: `self._current = id + 1`,
unconditionally (`holon/db/identity.py` lines 87–89). -/
def genMarkUsed (m : Memory) (id : Nat) : Memory :=
  { m with gen := id + 1 }

/-- `ObjectMemory.contains_version`: version present among stable or mutable
frames. -/
def Memory.contains_version (m : Memory) (v : Nat) : Bool :=
  dictContains m.stable_frames v || dictContains m.mutable_frames v

/-- `ObjectMemory.current_version`: `RuntimeError` when there is no current
index, the history is empty, or the index is out of range. -/
def ObjectMemory.current_version (m : Memory) : Except PErr Nat :=
  match m.current_version_index with
  | none => .error .runtimeError
  | some i =>
      if m.version_history.isEmpty then .error .runtimeError
      else
        match m.version_history.get? i with
        | some v => .ok v
        | none => .error .runtimeError

/-- `ObjectMemory.frame(version)` followed by nothing: direct dict access
`self._stable_frames[version]`, `KeyError` when absent. -/
def ObjectMemory.frame (m : Memory) (v : Nat) : Except PErr StableFrame :=
  match dictGet m.stable_frames v with
  | some f => .ok f
  | none => .error .keyError

/-- `ObjectMemory.current_frame`: `frame(current_version)`. -/
def ObjectMemory.current_frame (m : Memory) : Except PErr StableFrame :=
  match ObjectMemory.current_version m with
  | .error e => .error e
  | .ok v => ObjectMemory.frame m v

/-- `ObjectMemory.undoable_versions`. -/
def ObjectMemory.undoable_versions (m : Memory) : List Nat :=
  match m.current_version_index with
  | some i => m.version_history.take (i + 1)
  | none => []

/-- `ObjectMemory.redoable_versions`: `version_history[index+1:]`. -/
def ObjectMemory.redoable_versions (m : Memory) : List Nat :=
  match m.current_version_index with
  | some i => m.version_history.drop (i + 1)
  | none => []

/-- `ObjectMemory.undo(version)`: look the version up in the full history
(`RuntimeError` when absent) and move the cursor to its index.  No other
state is touched. -/
def ObjectMemory.undo (m : Memory) (version : Nat) : MResult Unit :=
  match listIndex m.version_history version with
  | none => .fail .runtimeError m
  | some i => .ok { m with current_version_index := some i } ()

/-- `ObjectMemory.redo(version)`: identical body to `undo` — the index is
searched in `version_history` again and the cursor moved. -/
def ObjectMemory.redo (m : Memory) (version : Nat) : MResult Unit :=
  match listIndex m.version_history version with
  | none => .fail .runtimeError m
  | some i => .ok { m with current_version_index := some i } ()

/-- `MutableFrame.__init__` object loop: for each snapshot of the original,
`self._snapshots[obj.id] = (obj, owned=False)` and
`self._snapshot_ids.add(obj.snapshot_id)` — note the frame keys by the
snapshot's own `id` field. -/
def buildFrameMaps (heap : List SnapshotData) :
    List Nat → (List (Nat × (Nat × Bool)) × List Nat) →
    (List (Nat × (Nat × Bool)) × List Nat)
  | [], acc => acc
  | a :: rest, (snaps, sids) =>
      buildFrameMaps heap rest
        (dictSet snaps (heap.getD a default).id (a, false),
         setAdd sids (heap.getD a default).snapshot_id)

/-- `ObjectMemory.create_frame(version?)`: when a version is supplied, assert
it is unused and `mark_used` it; otherwise draw one from the generator.
Register a fresh empty mutable frame under it. -/
def ObjectMemory.create_frame (m : Memory) (version : Option Nat) :
    MResult Nat :=
  let step : Option (Nat × Memory) :=
    match version with
    | some v =>
        if m.contains_version v then none
        else some (v, genMarkUsed m v)
    | none => some (genNext m)
  match step with
  | none => .fail .assertionError m
  | some (v, m1) =>
      let f : MutableFrame :=
        { version := v, state := .unstable, snapshots := [],
          snapshot_ids := [], removed_objects := [], derived_objects := [] }
      .ok { m1 with mutable_frames := dictSet m1.mutable_frames v f } v

/-- `ObjectMemory.derive_frame(original_version?, version?)`
(`holon/db/database.py` lines 326–368): resolve the original (defaulting to
the current version), allocate or `mark_used` the new version, fetch the
original stable frame (`KeyError` when absent from `_stable_frames`), and
build a mutable frame sharing all of its snapshots unowned. -/
def ObjectMemory.derive_frame (m : Memory)
    (original_version version : Option Nat) : MResult Nat :=
  let origStep : Except PErr Nat :=
    match original_version with
    | some o => if m.contains_version o then .ok o else .error .assertionError
    | none => ObjectMemory.current_version m
  match origStep with
  | .error e => .fail e m
  | .ok orig =>
      let verStep : Option (Nat × Memory) :=
        match version with
        | some v =>
            if m.contains_version v then none
            else some (v, genMarkUsed m v)
        | none => some (genNext m)
      match verStep with
      | none => .fail .assertionError m
      | some (v, m1) =>
          match dictGet m1.stable_frames orig with
          | none => .fail .keyError m1
          | some original =>
              let maps := buildFrameMaps m1.heap
                (original.objects.map (fun p => p.2)) ([], [])
              let f : MutableFrame :=
                { version := v, state := .unstable, snapshots := maps.1,
                  snapshot_ids := maps.2, removed_objects := [],
                  derived_objects := [] }
              .ok { m1 with mutable_frames := dictSet m1.mutable_frames v f } v

/-- `MutableFrame.contains(id)`. -/
def MutableFrame.containsObj (f : MutableFrame) (id : Nat) : Bool :=
  dictContains f.snapshots id

/-- `MutableFrame.object(id)`: the address (Python identity) of the snapshot,
`IDError(id)` when absent. -/
def MutableFrame.objectAddr (f : MutableFrame) (id : Nat) : Except PErr Nat :=
  match dictGet f.snapshots id with
  | some (a, _) => .ok a
  | none => .error (.idError id)

/-- `StableFrame.object(id)` as an address, `IDError(id)` when absent. -/
def StableFrame.objectAddr (f : StableFrame) (id : Nat) : Except PErr Nat :=
  match dictGet f.objects id with
  | some a => .ok a
  | none => .error (.idError id)

/-- `FrameBase.referential_integrity_violators` on a stable frame: object IDs
of snapshots having a structural dependency absent from the frame. -/
def StableFrame.referential_integrity_violators (m : Memory)
    (f : StableFrame) : List Nat :=
  (f.objects.filter (fun p =>
      (m.heapGet p.2).structural_dependencies.any
        (fun d => !(dictContains f.objects d)))).map (fun p => p.1)

/-- `MutableFrame.insert(snapshot, owned=False)`: assert the frame is mutable,
the object ID is new and the snapshot ID is new, then record the reference.
The snapshot is a freshly constructed Python object, so it is allocated at a
fresh heap address. -/
def MutableFrame.insert (m : Memory) (v : Nat) (data : SnapshotData)
    (owned : Bool) : MResult Unit :=
  match dictGet m.mutable_frames v with
  | none => .fail .keyError m
  | some f =>
      if !f.state.is_mutable then .fail .assertionError m
      else if dictContains f.snapshots data.id then .fail .assertionError m
      else if f.snapshot_ids.contains data.snapshot_id then
        .fail .assertionError m
      else
        let addr := m.heap.length
        let f1 : MutableFrame :=
          { f with snapshots := dictSet f.snapshots data.id (addr, owned),
                   snapshot_ids := setAdd f.snapshot_ids data.snapshot_id }
        .ok { m with heap := m.heap ++ [data],
                     mutable_frames := dictSet m.mutable_frames v f1 } ()

/-- `MutableFrame.insert_derived(original, id?)` (`holon/db/mutable_frame.py`
lines 186–213): draw `actual_id` (`id or next()` — Python truthiness, so a
supplied `0` is replaced) and a snapshot ID from the memory's generator,
derive the original, then `self.insert(derived)` — with the *default*
`owned=False` — and record it in `_derived_objects`. -/
def MutableFrame.insert_derived (m : Memory) (v : Nat)
    (original : SnapshotData) (idOpt : Option Nat) : MResult Nat :=
  match dictGet m.mutable_frames v with
  | none => .fail .keyError m
  | some f =>
      if !f.state.is_mutable then .fail .assertionError m
      else
        let step : Nat × Memory :=
          match idOpt with
          | some i => if i = 0 then genNext m else (i, m)
          | none => genNext m
        let actual_id := step.1
        let m1 := step.2
        let sidStep := genNext m1
        let sid := sidStep.1
        let m2 := sidStep.2
        match original.derive sid (some actual_id) with
        | .error e => .fail e m2
        | .ok derived =>
            let addr := m2.heap.length
            match MutableFrame.insert m2 v derived false with
            | .fail e mm => .fail e mm
            | .ok mm _ =>
                match dictGet mm.mutable_frames v with
                | none => .fail .keyError mm
                | some f2 =>
                    let f3 : MutableFrame :=
                      { f2 with derived_objects :=
                          dictSet f2.derived_objects actual_id addr }
                    .ok { mm with mutable_frames :=
                            dictSet mm.mutable_frames v f3 } actual_id

/-- `MutableFrame._derive_object(id)` (`holon/db/mutable_frame.py` lines
216–251): assert mutable, present and not already owned; derive the original
under a fresh snapshot ID, store the derived copy owned, and — as in the
source — add the *object* ID (not the new snapshot ID) to `_snapshot_ids`. -/
def MutableFrame.derive_object (m : Memory) (v id : Nat) : MResult Nat :=
  match dictGet m.mutable_frames v with
  | none => .fail .keyError m
  | some f =>
      if !f.state.is_mutable then .fail .assertionError m
      else
        match dictGet f.snapshots id with
        | none => .fail .assertionError m
        | some (a, owned) =>
            if owned then .fail .assertionError m
            else
              let sidStep := genNext m
              let sid := sidStep.1
              let m1 := sidStep.2
              match (m.heapGet a).derive sid none with
              | .error e => .fail e m1
              | .ok derived =>
                  let addr := m1.heap.length
                  let f1 : MutableFrame :=
                    { f with snapshots := dictSet f.snapshots id (addr, true),
                             snapshot_ids := setAdd f.snapshot_ids id }
                  .ok { m1 with heap := m1.heap ++ [derived],
                                mutable_frames :=
                                  dictSet m1.mutable_frames v f1 } addr

/-- `MutableFrame.mutable_object(id)` (`holon/db/mutable_frame.py` lines
254–275): return the entry of `_derived_objects` when present — without any
failure — otherwise `_derive_object` and record the result. -/
def MutableFrame.mutable_object (m : Memory) (v id : Nat) : MResult Nat :=
  match dictGet m.mutable_frames v with
  | none => .fail .keyError m
  | some f =>
      if !f.state.is_mutable then .fail .assertionError m
      else
        match dictGet f.derived_objects id with
        | some a => .ok m a
        | none =>
            match MutableFrame.derive_object m v id with
            | .fail e mm => .fail e mm
            | .ok mm addr =>
                match dictGet mm.mutable_frames v with
                | none => .fail .keyError mm
                | some f2 =>
                    let f3 : MutableFrame :=
                      { f2 with derived_objects :=
                          dictSet f2.derived_objects id addr }
                    .ok { mm with mutable_frames :=
                            dictSet mm.mutable_frames v f3 } addr

/-- `MutableFrame.set_component(id, component)`: assert mutable, get the
derived (owned) snapshot and mutate its component set in place. -/
def MutableFrame.set_component (m : Memory) (v id : Nat) (c : Comp) :
    MResult Unit :=
  match dictGet m.mutable_frames v with
  | none => .fail .keyError m
  | some f =>
      if !f.state.is_mutable then .fail .assertionError m
      else
        match MutableFrame.mutable_object m v id with
        | .fail e mm => .fail e mm
        | .ok mm addr =>
            let d := mm.heapGet addr
            .ok { mm with heap :=
                    mm.heap.set addr { d with comps := csSet d.comps c } } ()

/-- `MutableFrame._remove(id)`: assert mutable and present; `del` the entry,
`self._snapshot_ids.remove(snapshot.snapshot_id)` (a set `remove`, which
raises `KeyError` when the snapshot ID is not in the set — the `_snapshots`
deletion has already happened at that point), then record the removal. -/
def MutableFrame.remove_single (m : Memory) (v id : Nat) : MResult Unit :=
  match dictGet m.mutable_frames v with
  | none => .fail .keyError m
  | some f =>
      if !f.state.is_mutable then .fail .assertionError m
      else
        match dictGet f.snapshots id with
        | none => .fail .assertionError m
        | some (a, _) =>
            let sid := (m.heapGet a).snapshot_id
            let f1 : MutableFrame := { f with snapshots := dictDel f.snapshots id }
            if f1.snapshot_ids.contains sid then
              let f2 : MutableFrame :=
                { f1 with snapshot_ids := setRemove f1.snapshot_ids sid,
                          removed_objects := f1.removed_objects ++ [id] }
              .ok { m with mutable_frames := dictSet m.mutable_frames v f2 } ()
            else
              .fail .keyError
                { m with mutable_frames := dictSet m.mutable_frames v f1 }

/-- `MutableFrame.remove_cascading(id)` (`holon/db/mutable_frame.py` lines
286–306).  The source iterates `self._snapshots.items()` and calls
`self._remove(dep_id)` inside the loop; in CPython, deleting a dict entry
while iterating over it makes the very next call to the iterator raise
`RuntimeError` ("dictionary changed size during iteration") — even when the
deleted entry was the last one.  Hence: when some entry (in insertion order)
structurally depends on `id`, exactly the first such dependent is removed and
`RuntimeError` is raised; only when there is no dependent at all does the
loop complete, after which `id` itself is removed and `[]` returned. -/
def MutableFrame.remove_cascading (m : Memory) (v id : Nat) :
    MResult (List Nat) :=
  match dictGet m.mutable_frames v with
  | none => .fail .keyError m
  | some f =>
      if !f.state.is_mutable then .fail .assertionError m
      else if !(dictContains f.snapshots id) then .fail .assertionError m
      else
        match f.snapshots.find? (fun p =>
            ((m.heapGet p.2.1).structural_dependencies).contains id) with
        | some dep =>
            match MutableFrame.remove_single m v dep.1 with
            | .fail e mm => .fail e mm
            | .ok mm _ => .fail .runtimeError mm
        | none =>
            match MutableFrame.remove_single m v id with
            | .fail e mm => .fail e mm
            | .ok mm _ => .ok mm []

/-- `MutableFrame.freeze` (`holon/db/mutable_frame.py` lines 338–356): assert
mutable; freeze every *owned* snapshot whose state is not yet `FROZEN`; mark
the frame itself frozen. -/
def MutableFrame.freeze (m : Memory) (v : Nat) : MResult Unit :=
  match dictGet m.mutable_frames v with
  | none => .fail .keyError m
  | some f =>
      if !f.state.is_mutable then .fail .assertionError m
      else
        let heap1 := f.snapshots.foldl (fun h p =>
          if p.2.2 && !((h.getD p.2.1 default).state == .frozen) then
            h.set p.2.1 { (h.getD p.2.1 default) with state := .frozen }
          else h) m.heap
        .ok { m with heap := heap1,
                     mutable_frames :=
                       dictSet m.mutable_frames v { f with state := .frozen } } ()

/-- `StableFrame.__init__` object loop (`poietic/db/frame.py` lines 98–102):
raise `RuntimeError` when a snapshot is still mutable, otherwise key it by its
object ID. -/
def buildStableObjects (heap : List SnapshotData) :
    List Nat → List (Nat × Nat) → Except PErr (List (Nat × Nat))
  | [], acc => .ok acc
  | a :: rest, acc =>
      if (heap.getD a default).state.is_mutable then .error .runtimeError
      else buildStableObjects heap rest (dictSet acc (heap.getD a default).id a)

/-- In `ObjectMemory.accept` the re-verification reads
`if not frame.has_referential_integrity:` — `has_referential_integrity` is a
plain method of `FrameBase` and is referenced without being called, so the
tested value is a bound-method object, which is always truthy in Python; the
branch therefore never fires.  We embed the condition by its value. -/
def acceptIntegrityRecheckFires : Bool := false

/-- `ObjectMemory.accept(frame, append_history=True)` (`holon/db/database.py`
lines 384–432): collect the structural dependencies of *derived* objects that
are missing from the frame and raise `RuntimeError` when any exist; freeze
the frame; build the stable frame (which raises on still-mutable snapshots);
the referential-integrity re-check never fires (see
`acceptIntegrityRecheckFires`); register the stable frame, drop the mutable
entry, and update history (truncate the redo tail, advance the cursor,
append). -/
def ObjectMemory.accept (m : Memory) (v : Nat) (append_history : Bool) :
    MResult Unit :=
  match dictGet m.mutable_frames v with
  | none => .fail .keyError m
  | some f =>
      let missing := f.derived_objects.foldl (fun acc p =>
        acc ++ ((m.heapGet p.2).structural_dependencies.filter
          (fun dep => !(dictContains f.snapshots dep)))) []
      if !missing.isEmpty then .fail .runtimeError m
      else
        match MutableFrame.freeze m v with
        | .fail e mm => .fail e mm
        | .ok m1 _ =>
            match dictGet m1.mutable_frames v with
            | none => .fail .keyError m1
            | some f1 =>
                match buildStableObjects m1.heap
                    (f1.snapshots.map (fun p => p.2.1)) [] with
                | .error e => .fail e m1
                | .ok objs =>
                    let stable : StableFrame := ⟨f1.version, objs⟩
                    if acceptIntegrityRecheckFires then .fail .runtimeError m1
                    else
                      let m2 : Memory :=
                        { m1 with
                          stable_frames :=
                            dictSet m1.stable_frames f1.version stable,
                          mutable_frames := dictDel m1.mutable_frames v }
                      if append_history then
                        match m2.current_version_index with
                        | some i =>
                            let hist1 :=
                              if m2.version_history.isEmpty then
                                m2.version_history
                              else m2.version_history.take (i + 1)
                            .ok { m2 with
                                  version_history := hist1 ++ [f1.version],
                                  current_version_index := some (i + 1) } ()
                        | none =>
                            .ok { m2 with
                                  version_history :=
                                    m2.version_history ++ [f1.version],
                                  current_version_index := some 0 } ()
                      else .ok m2 ()

/-- An edge as consumed by `Graph.topological_sort`
(`holon/graph/graph.py`). -/
structure PyEdge where
  origin : Nat
  target : Nat
deriving DecidableEq, Repr

/-- Python `list.remove(x)` minus the `ValueError` (callers check
membership): drop the first occurrence. -/
def listRemoveFirst : List PyEdge → PyEdge → List PyEdge
  | [], _ => []
  | x :: xs, e => if x = e then xs else x :: listRemoveFirst xs e

/-- The inner `for edge in outgoings:` loop of `Graph.topological_sort`:
remove the edge from the working edge list (`list.remove` raises
`ValueError` when absent — returned here as `none`), then, when the edge's
target has no remaining incoming edge, append — as the source does —
`node` (the node just popped), not the target, to `sources`. -/
def processOutgoing : List PyEdge → Nat → List PyEdge → List Nat →
    Option (List PyEdge × List Nat)
  | edges, _, [], sources => some (edges, sources)
  | edges, node, e :: rest, sources =>
      if e ∈ edges then
        let edges1 := listRemoveFirst edges e
        let sources1 :=
          if edges1.any (fun x => x.target == e.target) then sources
          else sources ++ [node]
        processOutgoing edges1 node rest sources1
      else
        none

/-- The `while sources:` loop of `Graph.topological_sort`: pop the *last*
source, emit it, gather its outgoing edges from the current working list and
run the inner loop.  Returns the remaining edges and the emitted order
(`none` embeds a `ValueError` from `list.remove`). -/
def topoLoop (edges : List PyEdge) (sources sortedAcc : List Nat) :
    Option (List PyEdge × List Nat) :=
  if h : sources = [] then some (edges, sortedAcc)
  else
    let node := sources.getLast h
    let rest := sources.dropLast
    let outs := edges.filter (fun e => e.origin == node)
    match hp : processOutgoing edges node outs rest with
    | none => none
    | some (edges1, sources1) => topoLoop edges1 sources1 (sortedAcc ++ [node])
termination_by edges.length + sources.length
decreasing_by
  have hrf : ∀ (l : List PyEdge) (e : PyEdge), e ∈ l →
      (listRemoveFirst l e).length + 1 = l.length := by
    intro l e hmem
    induction l with
    | nil => cases hmem
    | cons x xs ih =>
        by_cases hx : x = e
        · simp [listRemoveFirst, hx]
        · have h2 : e ∈ xs := by
            cases hmem with
            | head => exact absurd rfl hx
            | tail _ h3 => exact h3
          simp [listRemoveFirst, hx, ih h2]
  have key : ∀ (os es0 : List PyEdge) (nd : Nat) (ss0 : List Nat)
      (es : List PyEdge) (ss : List Nat),
      processOutgoing es0 nd os ss0 = some (es, ss) →
      es.length + ss.length ≤ es0.length + ss0.length := by
    intro os
    induction os with
    | nil =>
        intro es0 nd ss0 es ss hq
        simp [processOutgoing] at hq
        simp [hq.1, hq.2]
    | cons e rest2 ih =>
        intro es0 nd ss0 es ss hq
        by_cases hmem : e ∈ es0
        · simp only [processOutgoing, if_pos hmem] at hq
          by_cases hinc :
              (listRemoveFirst es0 e).any (fun x => x.target == e.target)
          · have := ih (listRemoveFirst es0 e) nd ss0 es ss
              (by simpa [hinc] using hq)
            have hlen := hrf es0 e hmem
            omega
          · have := ih (listRemoveFirst es0 e) nd (ss0 ++ [nd]) es ss
              (by simpa [hinc] using hq)
            have hlen := hrf es0 e hmem
            simp at this
            omega
        · simp [processOutgoing, hmem] at hq
  have hle := key outs edges node rest edges1 sources1 hp
  have hdrop : rest.length + 1 = sources.length := by
    have := List.length_dropLast sources
    have hpos : 0 < sources.length := List.length_pos.mpr h
    simp only [rest, this]
    omega
  omega

/-- Result of `Graph.topological_sort`: the sorted IDs, the
`Exception("[UNHANDLED] Cycle")`, or a `ValueError` from `list.remove`. -/
inductive TopoResult where
  | okList (l : List Nat)
  | cycleError
  | valueError
deriving DecidableEq, Repr

/-- `Graph.topological_sort(to_sort, edges)` (`holon/graph/graph.py` lines
169–197): initial sources are the given nodes that are not the target of any
edge; run the peeling loop; raise the cycle error when edges remain. -/
def topological_sort (to_sort : List Nat) (edges : List PyEdge) : TopoResult :=
  let targets := edges.map (fun e => e.target)
  let sources := to_sort.filter (fun n => !(targets.contains n))
  match topoLoop edges sources [] with
  | none => .valueError
  | some (remaining, sortedAcc) =>
      if remaining.isEmpty then .okList sortedAcc else .cycleError

/-- The memory before `__init__` runs: empty maps, generator at `1`. -/
def ObjectMemory.emptyMemory : Memory :=
  { heap := [], gen := 1, stable_frames := [], mutable_frames := [],
    version_history := [], current_version_index := none }

/-- `ObjectMemory.__init__` without a store: create a first (empty) frame and
accept it. -/
def ObjectMemory.init : Memory :=
  match ObjectMemory.create_frame ObjectMemory.emptyMemory none with
  | .fail _ mm => mm
  | .ok m1 v =>
      match ObjectMemory.accept m1 v true with
      | .fail _ mm => mm
      | .ok m2 _ => m2

/-- The history well-formedness invariant of C10: the version history is
non-empty, the current-version cursor is a valid index into it, and every
listed version is registered as a stable frame — exactly what makes
`current_version`, `current_frame` and an argument-less `derive_frame` total. -/
def historyInv (m : Memory) : Bool :=
  match m.current_version_index with
  | none => false
  | some i =>
      !m.version_history.isEmpty &&
      decide (i < m.version_history.length) &&
      m.version_history.all (fun v => dictContains m.stable_frames v)

/-! Concrete scenario inputs used by individual claims.  Each claim has its
own inputs; none are shared across claims. -/

/-- C1 input: a frozen edge whose endpoints 20 and 30 exist nowhere. -/
def c1_edge : SnapshotData :=
  { id := 10, snapshot_id := 11, state := .frozen, otype := none,
    stype := .edge 20 30, comps := [] }

/-- C1: memory after deriving frame 2 from the initial memory. -/
def c1_m1 : Memory :=
  (ObjectMemory.derive_frame ObjectMemory.init none none).mem

/-- C1: force-insert the dangling edge unowned into frame 2. -/
def c1_insert : MResult Unit := MutableFrame.insert c1_m1 2 c1_edge false

/-- C1: accept the frame containing the dangling edge. -/
def c1_accept : MResult Unit := ObjectMemory.accept c1_insert.mem 2 true

/-- C2 witness input: a stable frame holding a frozen node (object 10 at
address 0) and a frozen edge (object 11 at address 1). -/
def c2_F1 : StableFrame := { version := 1, objects := [(10, 0), (11, 1)] }

/-- C2 witness input: the surrounding memory. -/
def c2_mem : Memory :=
  { heap := [{ id := 10, snapshot_id := 20, state := .frozen, otype := none,
               stype := .node, comps := [] },
             { id := 11, snapshot_id := 21, state := .frozen, otype := none,
               stype := .edge 10 10, comps := [] }],
    gen := 5, stable_frames := [(1, c2_F1)], mutable_frames := [],
    version_history := [1], current_version_index := some 0 }

/-- C2 witness input: the component written through the derived frame. -/
def c2_comp : Comp := { kind := 2, addr := 90, value := 7 }

/-- C3 scenario: accept three versions 1, 2, 3 in order (the initial accept
plus two derived empty frames). -/
def c3_m2 : Memory :=
  (ObjectMemory.derive_frame ObjectMemory.init none none).mem

/-- C3: accept version 2. -/
def c3_m3 : Memory := (ObjectMemory.accept c3_m2 2 true).mem

/-- C3: derive version 3. -/
def c3_m4 : Memory := (ObjectMemory.derive_frame c3_m3 none none).mem

/-- C3: accept version 3 — history is now `[1, 2, 3]`. -/
def c3_m5 : Memory := (ObjectMemory.accept c3_m4 3 true).mem

/-- C3: undo to version 2. -/
def c3_m6 : Memory := (ObjectMemory.undo c3_m5 2).mem

/-- C3: derive version 4 from the post-undo current version. -/
def c3_m7 : Memory := (ObjectMemory.derive_frame c3_m6 none none).mem

/-- C3: accept version 4 after the undo — this truncates the redo tail. -/
def c3_accept4 : MResult Unit := ObjectMemory.accept c3_m7 4 true

/-- C4 input heap: nodes N=1, M=2, P=3; edge E1=4 (N→M); edge E2=5 (P→N). -/
def c4_heap : List SnapshotData :=
  [{ id := 1, snapshot_id := 101, state := .frozen, otype := none,
     stype := .node, comps := [] },
   { id := 2, snapshot_id := 102, state := .frozen, otype := none,
     stype := .node, comps := [] },
   { id := 3, snapshot_id := 103, state := .frozen, otype := none,
     stype := .node, comps := [] },
   { id := 4, snapshot_id := 104, state := .frozen, otype := none,
     stype := .edge 1 2, comps := [] },
   { id := 5, snapshot_id := 105, state := .frozen, otype := none,
     stype := .edge 3 1, comps := [] }]

/-- C4: the mutable frame holding N, M, P, E1, E2. -/
def c4_frame : MutableFrame :=
  { version := 7, state := .unstable,
    snapshots := [(1, (0, false)), (2, (1, false)), (3, (2, false)),
                  (4, (3, false)), (5, (4, false))],
    snapshot_ids := [101, 102, 103, 104, 105],
    removed_objects := [], derived_objects := [] }

/-- C4: a memory holding that frame. -/
def c4_mem : Memory :=
  { heap := c4_heap, gen := 200, stable_frames := [],
    mutable_frames := [(7, c4_frame)], version_history := [],
    current_version_index := none }

/-- C4: cascading removal of node N=1. -/
def c4_res : MResult (List Nat) := MutableFrame.remove_cascading c4_mem 7 1

/-- C6 counterexample input: one frozen node, object ID 5, shared unowned. -/
def c6_frame : MutableFrame :=
  { version := 1, state := .unstable, snapshots := [(5, (0, false))],
    snapshot_ids := [50], removed_objects := [], derived_objects := [] }

/-- C6: the memory around it. -/
def c6_mem : Memory :=
  { heap := [{ id := 5, snapshot_id := 50, state := .frozen, otype := none,
               stype := .node, comps := [] }],
    gen := 60, stable_frames := [], mutable_frames := [(1, c6_frame)],
    version_history := [], current_version_index := none }

/-- C6: first `mutable_object` call — derives object 5. -/
def c6_first : MResult Nat := MutableFrame.mutable_object c6_mem 1 5

/-- C6: the frame state after the first `mutable_object` call: object 5 is
now owned at address 1 and recorded in `_derived_objects`. -/
def c6_frame_after : MutableFrame :=
  { version := 1, state := .unstable, snapshots := [(5, (1, true))],
    snapshot_ids := [50, 5], removed_objects := [], derived_objects := [(5, 1)] }

/-- C7 witness input: a frozen node with a type tag and one component. -/
def c7_node : SnapshotData :=
  { id := 21, snapshot_id := 22, state := .frozen, otype := some 5,
    stype := .node, comps := [{ kind := 1, addr := 30, value := 8 }] }

/-- C7 counterexample input: an `Unstable` edge carrying a type tag and one
component instance (Python identity 40). -/
def c7_edge : SnapshotData :=
  { id := 10, snapshot_id := 11, state := .unstable, otype := some 7,
    stype := .edge 1 2, comps := [{ kind := 3, addr := 40, value := 99 }] }

/-- C8 original snapshot handed to `insert_derived`. -/
def c8_orig : SnapshotData :=
  { id := 99, snapshot_id := 98, state := .transient, otype := none,
    stype := .node, comps := [] }

/-- C8: derive frame 2 from the initial memory (generator is at 3 after). -/
def c8_m2 : Memory :=
  (ObjectMemory.derive_frame ObjectMemory.init none none).mem

/-- C8: first `insert_derived` — draws object ID 3 and snapshot ID 4. -/
def c8_r3 : MResult Nat := MutableFrame.insert_derived c8_m2 2 c8_orig none

/-- C8: derive another frame supplying version 3 (an already-issued object
ID that is not a frame version), which `mark_used`s it. -/
def c8_r4 : MResult Nat :=
  ObjectMemory.derive_frame c8_r3.mem (some 1) (some 3)

/-- C8: second `insert_derived` after the generator was rewound. -/
def c8_r5 : MResult Nat := MutableFrame.insert_derived c8_r4.mem 3 c8_orig none

/-- C9 original snapshot (transient node, as `create_node` builds). -/
def c9_orig : SnapshotData :=
  { id := 77, snapshot_id := 76, state := .transient, otype := none,
    stype := .node, comps := [] }

/-- C9: derive frame 2 from the initial memory. -/
def c9_m1 : Memory :=
  (ObjectMemory.derive_frame ObjectMemory.init none none).mem

/-- C9: insert a derived node through `insert_derived`. -/
def c9_r : MResult Nat := MutableFrame.insert_derived c9_m1 2 c9_orig none

/-! ## Helper lemmas on the embedded containers -/

theorem dictGet_dictSet_self {α : Type} (l : List (Nat × α)) (k : Nat)
    (v : α) : dictGet (dictSet l k v) k = some v := by
  induction l with
  | nil => simp [dictSet, dictGet]
  | cons p rest ih =>
      by_cases h : p.1 = k
      · simp [dictSet, dictGet, h]
      · simp [dictSet, dictGet, h, ih]

theorem dictGet_dictSet_ne {α : Type} (l : List (Nat × α)) (k k' : Nat)
    (v : α) (h : k' ≠ k) : dictGet (dictSet l k v) k' = dictGet l k' := by
  have hk : ¬ (k = k') := fun hh => h hh.symm
  induction l with
  | nil => simp [dictSet, dictGet, hk]
  | cons p rest ih =>
      by_cases hp : p.1 = k
      · have hp2 : ¬ (p.1 = k') := by rw [hp]; exact hk
        simp [dictSet, dictGet, hp, hk, hp2]
      · by_cases hp2 : p.1 = k'
        · simp [dictSet, dictGet, hp, hp2, h]
        · simp [dictSet, dictGet, hp, hp2, ih]

theorem dictContains_dictSet {α : Type} (l : List (Nat × α)) (k k' : Nat)
    (v : α) (h : dictContains l k' = true) :
    dictContains (dictSet l k v) k' = true := by
  by_cases hk : k' = k
  · subst hk
    simp [dictContains, dictGet_dictSet_self]
  · simpa [dictContains, dictGet_dictSet_ne l k k' v hk] using h

theorem dictGet_mem {α : Type} (l : List (Nat × α)) (k : Nat) (v : α)
    (h : dictGet l k = some v) : (k, v) ∈ l := by
  induction l with
  | nil => simp [dictGet] at h
  | cons p rest ih =>
      obtain ⟨a, b⟩ := p
      by_cases hp : a = k
      · subst hp
        simp [dictGet] at h
        subst h
        exact List.mem_cons_self _ _
      · simp [dictGet, hp] at h
        exact List.mem_cons_of_mem _ (ih h)

theorem dictGet_append_left {α : Type} (l1 l2 : List (Nat × α)) (k : Nat)
    (h : dictContains l1 k = true) :
    dictGet (l1 ++ l2) k = dictGet l1 k := by
  induction l1 with
  | nil => simp [dictContains, dictGet] at h
  | cons p rest ih =>
      by_cases hp : p.1 = k
      · simp [dictGet, hp]
      · simp only [dictContains, dictGet, hp, if_neg hp] at h ⊢
        exact ih h

theorem dictGet_append_right {α : Type} (l1 l2 : List (Nat × α)) (k : Nat)
    (h : dictContains l1 k = false) :
    dictGet (l1 ++ l2) k = dictGet l2 k := by
  induction l1 with
  | nil => rfl
  | cons p rest ih =>
      by_cases hp : p.1 = k
      · simp [dictContains, dictGet, hp] at h
      · have h2 : dictContains rest k = false := by
          simpa [dictContains, dictGet, hp] using h
        simp [dictGet, hp, ih h2]

theorem dictSet_not_contains {α : Type} (l : List (Nat × α)) (k : Nat)
    (v : α) (h : dictContains l k = false) :
    dictSet l k v = l ++ [(k, v)] := by
  induction l with
  | nil => simp [dictSet]
  | cons p rest ih =>
      by_cases hp : p.1 = k
      · simp [dictContains, dictGet, hp] at h
      · simp only [dictContains, dictGet, if_neg hp] at h
        simp [dictSet, hp, ih h]

theorem listIndex_mem (l : List Nat) (v : Nat) (h : v ∈ l) :
    (listIndex l v).isSome = true := by
  induction l with
  | nil => cases h
  | cons x xs ih =>
      by_cases hx : x = v
      · simp [listIndex, hx]
      · have h2 : v ∈ xs := by
          cases h with
          | head => exact absurd rfl hx
          | tail _ h3 => exact h3
        simp [listIndex, hx]
        simpa using ih h2

theorem listIndex_not_mem (l : List Nat) (v : Nat) (h : ¬ v ∈ l) :
    listIndex l v = none := by
  induction l with
  | nil => simp [listIndex]
  | cons x xs ih =>
      have hx : ¬ x = v := fun hh => h (hh ▸ List.mem_cons_self x xs)
      have h2 : ¬ v ∈ xs := fun hh => h (List.mem_cons_of_mem x hh)
      simp [listIndex, hx, ih h2]

theorem listIndex_get (l : List Nat) (v i : Nat)
    (h : listIndex l v = some i) : l.get? i = some v := by
  induction l generalizing i with
  | nil => simp [listIndex] at h
  | cons x xs ih =>
      by_cases hx : x = v
      · simp [listIndex, hx] at h
        subst h
        simp [hx]
      · simp [listIndex, hx] at h
        obtain ⟨j, hj, hji⟩ := h
        subst hji
        simpa using ih j hj

theorem listIndex_lt_length (l : List Nat) (v i : Nat)
    (h : listIndex l v = some i) : i < l.length := by
  have := listIndex_get l v i h
  by_contra hcon
  have : l.get? i = none := List.get?_eq_none.mpr (by omega)
  simp_all

theorem getD_append_lt (h : List SnapshotData) (l : List SnapshotData)
    (a : Nat) (ha : a < h.length) :
    (h ++ l).getD a default = h.getD a default := by
  simp [List.getD_eq_getElem?_getD, List.getElem?_append, ha]

theorem getD_append_self (h : List SnapshotData) (x : SnapshotData) :
    (h ++ [x]).getD h.length default = x := by
  simp [List.getD_eq_getElem?_getD, List.getElem?_append_right (le_refl _)]

theorem getD_set_ne (h : List SnapshotData) (a b : Nat) (x : SnapshotData)
    (hab : a ≠ b) : (h.set b x).getD a default = h.getD a default := by
  simp [List.getD_eq_getElem?_getD, List.getElem?_set_ne (fun hh => hab hh.symm)]

/-! ## Claim theorems -/

/-- C1 (code bug): forcing a frozen edge with absent endpoints into a frame
unowned and accepting it *succeeds* — the integrity scan of `accept` covers
only `_derived_objects`, and the re-verification reads the
`has_referential_integrity` method without calling it — so the memory
registers a stable frame that violates referential integrity and appends it
to history, where the claim (and `accept`'s own docstring guarantee) requires
a fatal error leaving the memory unchanged. -/
theorem c1_accept_missing_deps_code_bug :
    c1_insert.isOk = true ∧
    c1_accept.isOk = true ∧
    dictGet c1_accept.mem.stable_frames 2 =
      some { version := 2, objects := [(10, 0)] } ∧
    c1_accept.mem.version_history = [1, 2] ∧
    StableFrame.referential_integrity_violators c1_accept.mem
      { version := 2, objects := [(10, 0)] } = [10] := by
  decide

/-- C4 (code bug): on the claimed configuration — node N=1 with edge E1=4
out of it and edge E2=5 into it, plus nodes M=2 and P=3 —
`remove_cascading(N)` removes the first dependent (E1) from the dict it is
iterating and the iteration then raises `RuntimeError` ("dictionary changed
size during iteration"); N itself and E2 are still in the frame and nothing
is returned, where the claim requires `{N, E1, E2}` removed and the removed
IDs returned. -/
theorem c4_remove_cascading_code_bug :
    c4_res.errOf = some .runtimeError ∧
    (dictGet c4_res.mem.mutable_frames 7).map (fun f =>
        (dictContains f.snapshots 1, dictContains f.snapshots 2,
         dictContains f.snapshots 3, dictContains f.snapshots 4,
         dictContains f.snapshots 5)) =
      some (true, true, true, false, true) ∧
    (dictGet c4_res.mem.mutable_frames 7).map
        (fun f => f.removed_objects) = some [4] := by
  decide

/-- C5 (code bug): the `topological_sort` loop appends the *popped node*
instead of the freed target back to `sources`, so for the acyclic chain
1→2→3 the sort raises the Cycle error, and for the single-edge DAG 1→2 it
returns `[1, 1]` — node 1 twice and node 2 never — where the claim requires
`[1, 2, 3]` and `[1, 2]` respectively. -/
theorem c5_topological_sort_code_bug :
    topological_sort [1, 2, 3] [⟨1, 2⟩, ⟨2, 3⟩] = .cycleError ∧
    topological_sort [1, 2] [⟨1, 2⟩] = .okList [1, 1] := by
  constructor
  · simp [topological_sort]
    rw [topoLoop]
    simp [processOutgoing, listRemoveFirst]
    rw [topoLoop]
    simp [processOutgoing, listRemoveFirst]
    rw [topoLoop]
    simp
  · simp [topological_sort]
    rw [topoLoop]
    simp [processOutgoing, listRemoveFirst]
    rw [topoLoop]
    simp [processOutgoing, listRemoveFirst]
    rw [topoLoop]
    simp

/-- C8 (code bug): `mark_used(id)` rewinds `_current` to `id + 1`
unconditionally, so after `derive_frame(original=1, version=3)` marks the
already-issued object ID 3 as used, the generator hands out 4 again — the
first `insert_derived` already received 4 as a snapshot ID (visible on the
heap) and the second `insert_derived` now receives 4 as an object ID — where
the claim requires `next()` to never reissue an integer. -/
theorem c8_generator_reissue_code_bug :
    (ObjectMemory.derive_frame ObjectMemory.init none none).toVal = some 2 ∧
    c8_r3.toVal = some 3 ∧
    (c8_r3.mem.heapGet 0).snapshot_id = 4 ∧
    c8_r4.toVal = some 3 ∧
    c8_r4.mem.gen = 4 ∧
    c8_r5.toVal = some 4 := by
  decide

/-- C9 (code bug): `insert_derived` calls `self.insert(derived)` without
`owned=True`, so the freshly derived (still `Unstable`) snapshot is held
unowned; `freeze` skips unowned snapshots, and `accept` then fails with
`RuntimeError` when the `StableFrame` constructor meets the still-mutable
snapshot — the claim (and the spec's "unowned ones are by construction
already frozen") requires every unowned snapshot to be frozen and acceptance
to never meet a mutable snapshot. -/
theorem c9_insert_derived_unowned_code_bug :
    c9_r.toVal = some 3 ∧
    (dictGet c9_r.mem.mutable_frames 2).map (fun f => dictGet f.snapshots 3) =
      some (some (0, false)) ∧
    (c9_r.mem.heapGet 0).state = .unstable ∧
    (ObjectMemory.accept c9_r.mem 2 true).errOf = some .runtimeError := by
  decide

/-- C6 counterexample: after a first `mutable_object` call has derived object
5 (its frame entry is now owned), a second `mutable_object` call on the same
ID does not fail: it returns the identical snapshot (same address, memory
untouched), refuting the claim that a second `mutable_object` call on an
already-owned ID fails fatally. -/
theorem c6_counterexample_second_call_succeeds :
    c6_first.toVal = some 1 ∧
    (dictGet c6_first.mem.mutable_frames 1).map
        (fun f => dictGet f.snapshots 5) = some (some (1, true)) ∧
    MutableFrame.mutable_object c6_first.mem 1 5 = .ok c6_first.mem 1 := by
  decide

/-- C7 counterexample: deriving an `Unstable` edge succeeds (no state
assertion in the edge override), the derived snapshot's type is `none`
although the original carried `some 7`, and the derived component list holds
the same component instance (address 40) as the original — refuting "fails
unless Transient or Frozen", "same type", and "components copied by value,
not shared by reference". -/
theorem c7_counterexample_edge_derive :
    c7_edge.state.can_derive = false ∧
    c7_edge.derive 12 none =
      .ok { id := 10, snapshot_id := 12, state := .unstable, otype := none,
            stype := .edge 1 2,
            comps := [{ kind := 3, addr := 40, value := 99 }] } := by
  decide

theorem csSet_not_has (cs : List Comp) (c : Comp)
    (h : csHas cs c.kind = false) : csSet cs c = cs ++ [c] := by
  simp only [csHas] at h
  simp [csSet, h]

theorem csHas_append (a b : List Comp) (k : Nat) :
    csHas (a ++ b) k = (csHas a k || csHas b k) := by
  simp [csHas, List.any_append]

theorem csFold_of_disjoint (l : List Comp) :
    ∀ acc, (∀ c ∈ l, csHas acc c.kind = false) →
      (l.map (fun c => c.kind)).Nodup →
      l.foldl csSet acc = acc ++ l := by
  induction l with
  | nil => intro acc _ _; simp
  | cons c rest ih =>
      intro acc hdisj hnd
      have hc : csHas acc c.kind = false :=
        hdisj c (List.mem_cons_self _ _)
      have hset : csSet acc c = acc ++ [c] := csSet_not_has acc c hc
      have hnd1 : (∀ x ∈ rest, ¬ x.kind = c.kind) ∧
          (rest.map (fun y => y.kind)).Nodup := by simpa using hnd
      have hnd2 : (rest.map (fun x => x.kind)).Nodup := hnd1.2
      have hck : ∀ x ∈ rest, ¬ (x.kind = c.kind) := hnd1.1
      have hdisj2 : ∀ x ∈ rest, csHas (acc ++ [c]) x.kind = false := by
        intro x hx
        rw [csHas_append]
        have h1 : csHas acc x.kind = false :=
          hdisj x (List.mem_cons_of_mem _ hx)
        have h2 : csHas [c] x.kind = false := by
          simp [csHas]
          exact fun hh => (hck x hx) hh.symm
        simp [h1, h2]
      calc (c :: rest).foldl csSet acc = rest.foldl csSet (csSet acc c) := rfl
        _ = rest.foldl csSet (acc ++ [c]) := by rw [hset]
        _ = (acc ++ [c]) ++ rest := ih (acc ++ [c]) hdisj2 hnd2
        _ = acc ++ (c :: rest) := by simp

theorem csOfList_eq_self (l : List Comp)
    (h : (l.map (fun c => c.kind)).Nodup) : csOfList l = l := by
  have := csFold_of_disjoint l [] (by intro c _; simp [csHas]) h
  simpa [csOfList] using this

theorem dictContains_append {α : Type} (l1 l2 : List (Nat × α)) (k : Nat) :
    dictContains (l1 ++ l2) k = (dictContains l1 k || dictContains l2 k) := by
  induction l1 with
  | nil => simp [dictContains, dictGet]
  | cons p rest ih =>
      by_cases hp : p.1 = k
      · simp [dictContains, dictGet, hp]
      · simp only [List.cons_append, dictContains, dictGet, if_neg hp]
        exact ih

theorem buildFrameMaps_fst (heap : List SnapshotData) (obs : List (Nat × Nat)) :
    ∀ (acc : List (Nat × (Nat × Bool))) (sids : List Nat),
      (∀ p ∈ obs, (heap.getD p.2 default).id = p.1) →
      (obs.map (fun p => p.1)).Nodup →
      (∀ p ∈ obs, dictContains acc p.1 = false) →
      (buildFrameMaps heap (obs.map (fun p => p.2)) (acc, sids)).1 =
        acc ++ obs.map (fun p => (p.1, (p.2, false))) := by
  induction obs with
  | nil => intro acc sids _ _ _; simp [buildFrameMaps]
  | cons p rest ih =>
      intro acc sids hids hnd hdisj
      have hid : (heap.getD p.2 default).id = p.1 :=
        hids p (List.mem_cons_self _ _)
      have hc : dictContains acc p.1 = false :=
        hdisj p (List.mem_cons_self _ _)
      rw [List.map_cons, List.nodup_cons] at hnd
      have hnd1 : (∀ q ∈ rest, ¬ q.1 = p.1) ∧
          (rest.map (fun q => q.1)).Nodup := by
        refine ⟨?_, hnd.2⟩
        intro q hq hh
        exact hnd.1 (List.mem_map.mpr ⟨q, hq, hh⟩)
      have hdisj2 : ∀ q ∈ rest,
          dictContains (acc ++ [(p.1, (p.2, false))]) q.1 = false := by
        intro q hq
        rw [dictContains_append]
        have h1 := hdisj q (List.mem_cons_of_mem _ hq)
        have h2 : dictContains [(p.1, (p.2, false))] q.1 = false := by
          simp [dictContains, dictGet]
          exact fun hh => (hnd1.1 q hq) hh.symm
        simp [h1, h2]
      simp only [List.map_cons, buildFrameMaps, hid]
      rw [dictSet_not_contains acc p.1 _ hc]
      rw [ih (acc ++ [(p.1, (p.2, false))]) _
            (fun q hq => hids q (List.mem_cons_of_mem _ hq)) hnd1.2 hdisj2]
      simp

theorem dictGet_map_pairs (obs : List (Nat × Nat)) (k : Nat) :
    dictGet (obs.map (fun p => (p.1, (p.2, false)))) k =
      (dictGet obs k).map (fun a => (a, false)) := by
  induction obs with
  | nil => rfl
  | cons p rest ih =>
      by_cases hp : p.1 = k
      · simp [dictGet, hp]
      · simp [dictGet, hp, ih]

theorem derive_ok_of_can_derive (s : SnapshotData) (sid : Nat)
    (h : s.state.can_derive = true) : ∃ d, s.derive sid none = .ok d := by
  cases hs : s.stype with
  | node =>
      refine ⟨{ id := pyOrId none s.id, snapshot_id := sid,
                state := .unstable, otype := s.otype, stype := .node,
                comps := csOfList s.comps }, ?_⟩
      simp [SnapshotData.derive, hs, h]
  | edge o t =>
      refine ⟨{ id := pyOrId none s.id, snapshot_id := sid,
                state := .unstable, otype := none, stype := .edge o t,
                comps := csOfList s.comps }, ?_⟩
      simp [SnapshotData.derive, hs]

theorem derive_frame_spec (m : Memory) (o : Nat) (F : StableFrame)
    (hF : dictGet m.stable_frames o = some F) :
    ObjectMemory.derive_frame m (some o) none =
      .ok { m with gen := m.gen + 1,
                   mutable_frames := dictSet m.mutable_frames m.gen
                     { version := m.gen, state := .unstable,
                       snapshots := (buildFrameMaps m.heap
                         (F.objects.map (fun p => p.2)) ([], [])).1,
                       snapshot_ids := (buildFrameMaps m.heap
                         (F.objects.map (fun p => p.2)) ([], [])).2,
                       removed_objects := [],
                       derived_objects := [] } } m.gen := by
  have hcv : m.contains_version o = true := by
    simp [Memory.contains_version, dictContains, hF]
  simp [ObjectMemory.derive_frame, hcv, genNext, hF]

theorem derive_object_spec (m : Memory) (v id a : Nat) (f : MutableFrame)
    (d : SnapshotData)
    (hf : dictGet m.mutable_frames v = some f)
    (hmut : f.state.is_mutable = true)
    (hsnap : dictGet f.snapshots id = some (a, false))
    (hder : (m.heapGet a).derive m.gen none = .ok d) :
    MutableFrame.derive_object m v id =
      .ok { m with gen := m.gen + 1, heap := m.heap ++ [d],
                   mutable_frames := dictSet m.mutable_frames v
                     { f with
                       snapshots := dictSet f.snapshots id (m.heap.length, true),
                       snapshot_ids := setAdd f.snapshot_ids id } }
        m.heap.length := by
  simp [MutableFrame.derive_object, hf, hmut, hsnap, genNext, hder]

theorem mutable_object_spec (m : Memory) (v id addr : Nat)
    (f f2 : MutableFrame) (mm : Memory)
    (hf : dictGet m.mutable_frames v = some f)
    (hmut : f.state.is_mutable = true)
    (hnone : dictGet f.derived_objects id = none)
    (hderiv : MutableFrame.derive_object m v id = .ok mm addr)
    (hf2 : dictGet mm.mutable_frames v = some f2) :
    MutableFrame.mutable_object m v id =
      .ok { mm with
            mutable_frames := dictSet mm.mutable_frames v
              { f2 with
                derived_objects := dictSet f2.derived_objects id addr } } addr := by
  simp [MutableFrame.mutable_object, hf, hmut, hnone, hderiv, hf2]

theorem set_component_spec (m : Memory) (v id addr : Nat) (c : Comp)
    (f : MutableFrame) (mm : Memory)
    (hf : dictGet m.mutable_frames v = some f)
    (hmut : f.state.is_mutable = true)
    (hmo : MutableFrame.mutable_object m v id = .ok mm addr) :
    MutableFrame.set_component m v id c =
      .ok { mm with
            heap := mm.heap.set addr
              { mm.heapGet addr with comps := csSet (mm.heapGet addr).comps c } } () := by
  simp [MutableFrame.set_component, hf, hmut, hmo]

/-- C2: copy-on-write isolation.  For a stable frame `F1` (well-formed: keys
unique, each entry's snapshot carries its key as object ID and lives on the
heap) containing object `A` at address `aA` in a derivable state, deriving a
mutable frame and setting a component of `A` through it succeeds, and: the
stable frames are untouched, the snapshot at `A`'s old address is unchanged
(so `A`'s components observed via `F1` are unchanged), and every object `O`
other than `A` is present in the mutable frame at the *identical address*
(the identical Python snapshot instance) as in `F1`. -/
theorem c2_copy_on_write_isolation
    (m : Memory) (f1v A aA : Nat) (F1 : StableFrame) (c : Comp)
    (hF1 : dictGet m.stable_frames f1v = some F1)
    (hnd : (F1.objects.map (fun p => p.1)).Nodup)
    (hids : ∀ p ∈ F1.objects, (m.heapGet p.2).id = p.1)
    (hwf : ∀ p ∈ F1.objects, p.2 < m.heap.length)
    (hA : dictGet F1.objects A = some aA)
    (hcd : (m.heapGet aA).state.can_derive = true) :
    ∃ m1, ObjectMemory.derive_frame m (some f1v) none = .ok m1 m.gen ∧
    ∃ m2, MutableFrame.set_component m1 m.gen A c = .ok m2 () ∧
      m2.stable_frames = m.stable_frames ∧
      m2.heapGet aA = m.heapGet aA ∧
      ∃ F2, dictGet m2.mutable_frames m.gen = some F2 ∧
        ∀ O aO, O ≠ A → dictGet F1.objects O = some aO →
          MutableFrame.objectAddr F2 O = .ok aO ∧
          StableFrame.objectAddr F1 O = .ok aO := by
  have hids2 : ∀ p ∈ F1.objects, (m.heap.getD p.2 default).id = p.1 := by
    intro p hp
    simpa [Memory.heapGet] using hids p hp
  have hbuild := buildFrameMaps_fst m.heap F1.objects [] [] hids2 hnd
    (fun p _ => rfl)
  have h1 := derive_frame_spec m f1v F1 hF1
  rw [hbuild] at h1
  set S : List (Nat × (Nat × Bool)) :=
    F1.objects.map (fun p => (p.1, (p.2, false))) with hS
  set W : List Nat :=
    (buildFrameMaps m.heap (F1.objects.map (fun p => p.2)) ([], [])).2 with hW
  set NF : MutableFrame :=
    { version := m.gen, state := .unstable, snapshots := S,
      snapshot_ids := W, removed_objects := [], derived_objects := [] }
    with hNF
  set M1 : Memory :=
    { m with gen := m.gen + 1,
             mutable_frames := dictSet m.mutable_frames m.gen NF } with hM1
  have hfm1 : dictGet M1.mutable_frames m.gen = some NF :=
    dictGet_dictSet_self m.mutable_frames m.gen NF
  have hmutNF : NF.state.is_mutable = true := rfl
  have hsnapA : dictGet NF.snapshots A = some (aA, false) := by
    show dictGet S A = some (aA, false)
    rw [hS, dictGet_map_pairs, hA]
    rfl
  have hnoneA : dictGet NF.derived_objects A = none := rfl
  obtain ⟨d, hd⟩ :=
    derive_ok_of_can_derive (m.heapGet aA) (m.gen + 1) hcd
  have hd1 : (M1.heapGet aA).derive M1.gen none = .ok d := hd
  have h2 := derive_object_spec M1 m.gen A aA NF d hfm1 hmutNF hsnapA hd1
  set NF1 : MutableFrame :=
    { NF with snapshots := dictSet NF.snapshots A (M1.heap.length, true),
              snapshot_ids := setAdd NF.snapshot_ids A } with hNF1
  set M2 : Memory :=
    { M1 with gen := M1.gen + 1, heap := M1.heap ++ [d],
              mutable_frames := dictSet M1.mutable_frames m.gen NF1 } with hM2
  have hfm2 : dictGet M2.mutable_frames m.gen = some NF1 :=
    dictGet_dictSet_self M1.mutable_frames m.gen NF1
  have h3 := mutable_object_spec M1 m.gen A M1.heap.length NF NF1 M2
    hfm1 hmutNF hnoneA h2 hfm2
  set NF2 : MutableFrame :=
    { NF1 with derived_objects :=
        dictSet NF1.derived_objects A M1.heap.length } with hNF2
  set M3 : Memory :=
    { M2 with mutable_frames := dictSet M2.mutable_frames m.gen NF2 } with hM3
  have h4 := set_component_spec M1 m.gen A M1.heap.length c NF M3
    hfm1 hmutNF h3
  set M4 : Memory :=
    { M3 with
      heap := M3.heap.set M1.heap.length
                { M3.heapGet M1.heap.length with
                  comps := csSet (M3.heapGet M1.heap.length).comps c } }
    with hM4
  have haAlt : aA < m.heap.length := hwf (A, aA) (dictGet_mem _ _ _ hA)
  refine ⟨M1, h1, M4, h4, ?_, ?_, NF2, ?_, ?_⟩
  · rfl
  · show ((m.heap ++ [d]).set m.heap.length
        { M3.heapGet M1.heap.length with
          comps := csSet (M3.heapGet M1.heap.length).comps c }).getD aA default
      = m.heap.getD aA default
    rw [getD_set_ne _ _ _ _ (by omega), getD_append_lt _ _ _ haAlt]
  · exact dictGet_dictSet_self M2.mutable_frames m.gen NF2
  · intro O aO hOne hO
    constructor
    · show MutableFrame.objectAddr NF2 O = .ok aO
      have hget : dictGet NF2.snapshots O = some (aO, false) := by
        show dictGet (dictSet S A (M1.heap.length, true)) O = some (aO, false)
        rw [dictGet_dictSet_ne _ _ _ _ hOne, hS, dictGet_map_pairs, hO]
        rfl
      simp [MutableFrame.objectAddr, hget]
    · simp [StableFrame.objectAddr, hO]

/-- Witness for C2: the copy-on-write theorem applied to a concrete memory
holding a stable frame with a frozen node (object 10 at address 0) and a
frozen edge (object 11 at address 1), setting a component of the node. -/
theorem c2_copy_on_write_isolation_witness :
    ∃ m1, ObjectMemory.derive_frame c2_mem (some 1) none = .ok m1 c2_mem.gen ∧
    ∃ m2, MutableFrame.set_component m1 c2_mem.gen 10 c2_comp = .ok m2 () ∧
      m2.stable_frames = c2_mem.stable_frames ∧
      m2.heapGet 0 = c2_mem.heapGet 0 ∧
      ∃ F2, dictGet m2.mutable_frames c2_mem.gen = some F2 ∧
        ∀ O aO, O ≠ 10 → dictGet c2_F1.objects O = some aO →
          MutableFrame.objectAddr F2 O = .ok aO ∧
          StableFrame.objectAddr c2_F1 O = .ok aO :=
  c2_copy_on_write_isolation c2_mem 1 10 0 c2_F1 c2_comp
    (by decide) (by decide) (by decide) (by decide) (by decide) (by decide)

/-- C3: undo and redo only move the cursor — for a version in the history
they set the cursor to its index (current version becomes that version, the
history, stable frames and mutable frames are untouched, and everything
after the index stays listed in `redoable_versions`); for a version absent
from the history both fail fatally with `RuntimeError`; and in the concrete
scenario accept v1=1, v2=2, v3=3, undo(2), accept v4=4, the history equals
`[1, 2, 4]` with an empty redo list and version 3 unreachable by redo. -/
theorem c3_undo_redo_cursor :
    (∀ (m : Memory) (v : Nat),
      (v ∈ m.version_history →
        ∃ i, listIndex m.version_history v = some i ∧
          ObjectMemory.undo m v =
            .ok { m with current_version_index := some i } () ∧
          ObjectMemory.redo m v =
            .ok { m with current_version_index := some i } () ∧
          ObjectMemory.current_version
            { m with current_version_index := some i } = .ok v ∧
          ObjectMemory.redoable_versions
            { m with current_version_index := some i } =
            m.version_history.drop (i + 1)) ∧
      (¬ v ∈ m.version_history →
        ObjectMemory.undo m v = .fail .runtimeError m ∧
        ObjectMemory.redo m v = .fail .runtimeError m)) ∧
    (c3_m5.version_history = [1, 2, 3] ∧
     ObjectMemory.redoable_versions c3_m6 = [3] ∧
     c3_accept4.isOk = true ∧
     c3_accept4.mem.version_history = [1, 2, 4] ∧
     ObjectMemory.redoable_versions c3_accept4.mem = [] ∧
     ObjectMemory.redo c3_accept4.mem 3 =
       .fail .runtimeError c3_accept4.mem) := by
  constructor
  · intro m v
    constructor
    · intro hmem
      have hsome := listIndex_mem m.version_history v hmem
      obtain ⟨i, hi⟩ := Option.isSome_iff_exists.mp hsome
      refine ⟨i, hi, ?_, ?_, ?_, ?_⟩
      · simp [ObjectMemory.undo, hi]
      · simp [ObjectMemory.redo, hi]
      · have hget := listIndex_get m.version_history v i hi
        have hne : m.version_history.isEmpty = false := by
          cases hh : m.version_history with
          | nil => rw [hh] at hmem; cases hmem
          | cons a l => simp
        rw [List.get?_eq_getElem?] at hget
        simp [ObjectMemory.current_version, hne, hget]
      · simp [ObjectMemory.redoable_versions]
    · intro hmem
      have hnone := listIndex_not_mem m.version_history v hmem
      constructor
      · simp [ObjectMemory.undo, hnone]
      · simp [ObjectMemory.redo, hnone]
  · refine ⟨by decide, by decide, by decide, by decide, by decide, by decide⟩

/-- Witness for C3: at the concrete post-scenario memory, undoing to the
present version 2 succeeds (cursor to index 1) and undoing to the absent
version 9 fails. -/
theorem c3_undo_redo_cursor_witness :
    (2 ∈ c3_m5.version_history ∧
      ObjectMemory.undo c3_m5 2 =
        .ok { c3_m5 with current_version_index := some 1 } ()) ∧
    (¬ 9 ∈ c3_m5.version_history ∧
      ObjectMemory.undo c3_m5 9 = .fail .runtimeError c3_m5) := by
  constructor
  · refine ⟨by decide, ?_⟩
    have h := (c3_undo_redo_cursor.1 c3_m5 2).1 (by decide)
    obtain ⟨i, hi, hundo, _⟩ := h
    have hconc : listIndex c3_m5.version_history 2 = some 1 := by decide
    rw [hconc] at hi
    cases hi
    exact hundo
  · refine ⟨by decide, ?_⟩
    exact ((c3_undo_redo_cursor.1 c3_m5 9).2 (by decide)).1

/-- C6 (amended): `_derive_object` on an already-owned entry fails as a
fatal precondition violation, while `mutable_object` on an already-derived
ID does not fail — it silently returns the identical already-derived
snapshot (same address) and leaves the memory untouched. -/
theorem c6_amended_derive_once :
    (∀ (m : Memory) (v id : Nat) (f : MutableFrame) (b : Nat),
      dictGet m.mutable_frames v = some f →
      f.state.is_mutable = true →
      dictGet f.snapshots id = some (b, true) →
      MutableFrame.derive_object m v id = .fail .assertionError m) ∧
    (∀ (m : Memory) (v id : Nat) (f : MutableFrame) (a : Nat),
      dictGet m.mutable_frames v = some f →
      f.state.is_mutable = true →
      dictGet f.derived_objects id = some a →
      MutableFrame.mutable_object m v id = .ok m a) := by
  constructor
  · intro m v id f b hf hmut hown
    simp [MutableFrame.derive_object, hf, hmut, hown]
  · intro m v id f a hf hmut hder
    simp [MutableFrame.mutable_object, hf, hmut, hder]

/-- Witness for C6: at the concrete memory after the first derivation, the
owned entry makes `derive_object` fail and `mutable_object` return the same
address silently. -/
theorem c6_amended_derive_once_witness :
    dictGet c6_first.mem.mutable_frames 1 = some c6_frame_after ∧
    c6_frame_after.state.is_mutable = true ∧
    dictGet c6_frame_after.snapshots 5 = some (1, true) ∧
    dictGet c6_frame_after.derived_objects 5 = some 1 ∧
    MutableFrame.derive_object c6_first.mem 1 5 =
      .fail .assertionError c6_first.mem ∧
    MutableFrame.mutable_object c6_first.mem 1 5 = .ok c6_first.mem 1 := by
  refine ⟨by decide, by decide, by decide, by decide, ?_, ?_⟩
  · exact c6_amended_derive_once.1 c6_first.mem 1 5 c6_frame_after 1
      (by decide) (by decide) (by decide)
  · exact c6_amended_derive_once.2 c6_first.mem 1 5 c6_frame_after 1
      (by decide) (by decide) (by decide)

/-- C7 (amended): deriving a *node* snapshot fails unless its state is
Transient or Frozen and otherwise yields an `Unstable` snapshot with the
same type, the object ID unless overridden, the given snapshot ID, and a
fresh component container holding the same component instances (for the
duplicate-free kind lists the system maintains, the component list is
literally the original one — shared by reference, not copied by value);
deriving an *edge* performs no state check, keeps origin and target, and
resets the type to `None`. -/
theorem c7_amended_derive :
    ∀ (s : SnapshotData) (sid : Nat) (idOpt : Option Nat),
      (s.stype = .node →
        ((s.state.can_derive = false →
            s.derive sid idOpt = .error .assertionError) ∧
         (s.state.can_derive = true →
           ∃ d, s.derive sid idOpt = .ok d ∧
             d.state = .unstable ∧ d.otype = s.otype ∧
             d.id = pyOrId idOpt s.id ∧ d.snapshot_id = sid ∧
             d.stype = .node ∧ d.comps = csOfList s.comps))) ∧
      (∀ o t, s.stype = .edge o t →
        ∃ d, s.derive sid idOpt = .ok d ∧
          d.state = .unstable ∧ d.otype = none ∧
          d.id = pyOrId idOpt s.id ∧ d.snapshot_id = sid ∧
          d.stype = .edge o t ∧ d.comps = csOfList s.comps) ∧
      ((s.comps.map (fun c => c.kind)).Nodup → csOfList s.comps = s.comps) := by
  intro s sid idOpt
  refine ⟨?_, ?_, csOfList_eq_self s.comps⟩
  · intro hn
    constructor
    · intro hcd
      simp [SnapshotData.derive, hn, hcd]
    · intro hcd
      refine ⟨{ id := pyOrId idOpt s.id, snapshot_id := sid,
                state := .unstable, otype := s.otype, stype := .node,
                comps := csOfList s.comps },
              ?_, rfl, rfl, rfl, rfl, rfl, rfl⟩
      simp [SnapshotData.derive, hn, hcd]
  · intro o t he
    refine ⟨{ id := pyOrId idOpt s.id, snapshot_id := sid,
              state := .unstable, otype := none, stype := .edge o t,
              comps := csOfList s.comps },
            ?_, rfl, rfl, rfl, rfl, rfl, rfl⟩
    simp [SnapshotData.derive, he]

/-- Witness for C7: the amended statement applied to a concrete frozen node
with one component. -/
theorem c7_amended_derive_witness :
    c7_node.stype = .node ∧ c7_node.state.can_derive = true ∧
    (∃ d, c7_node.derive 23 none = .ok d ∧
      d.state = .unstable ∧ d.otype = c7_node.otype ∧
      d.id = pyOrId none c7_node.id ∧ d.snapshot_id = 23 ∧
      d.stype = .node ∧ d.comps = csOfList c7_node.comps) := by
  refine ⟨rfl, by decide, ?_⟩
  exact ((c7_amended_derive c7_node 23 none).1 rfl).2 (by decide)

theorem freeze_preserves (m : Memory) (v : Nat) :
    (MutableFrame.freeze m v).mem.version_history = m.version_history ∧
    (MutableFrame.freeze m v).mem.current_version_index =
      m.current_version_index ∧
    (MutableFrame.freeze m v).mem.stable_frames = m.stable_frames := by
  unfold MutableFrame.freeze
  cases hmf : dictGet m.mutable_frames v with
  | none => simp [MResult.mem]
  | some f =>
      by_cases hst : f.state.is_mutable
      · simp [hst, MResult.mem]
      · simp [hst, MResult.mem]

theorem historyInv_congr (a b : Memory)
    (h1 : a.version_history = b.version_history)
    (h2 : a.current_version_index = b.current_version_index)
    (h3 : a.stable_frames = b.stable_frames) :
    historyInv a = historyInv b := by
  simp [historyInv, h1, h2, h3]

/-- C10: a store-less `ObjectMemory` bootstraps itself — right after
construction the history is exactly `[1]` with an empty stable frame and the
cursor at index 0, the history invariant (`historyInv`) holds, it makes
`current_version`, `current_frame` and an argument-less `derive_frame`
succeed, and it is preserved by `accept` (in success and in failure, with or
without history append), `undo` and `redo`. -/
theorem c10_bootstrap_history_invariant :
    (ObjectMemory.init.version_history = [1] ∧
     dictGet ObjectMemory.init.stable_frames 1 =
       some { version := 1, objects := [] } ∧
     ObjectMemory.init.current_version_index = some 0 ∧
     historyInv ObjectMemory.init = true) ∧
    (∀ m : Memory, historyInv m = true →
      ((∃ v, ObjectMemory.current_version m = .ok v ∧
          ∃ F, ObjectMemory.current_frame m = .ok F) ∧
       (ObjectMemory.derive_frame m none none).isOk = true ∧
       (∀ v b, historyInv (ObjectMemory.accept m v b).mem = true) ∧
       (∀ v, historyInv (ObjectMemory.undo m v).mem = true) ∧
       (∀ v, historyInv (ObjectMemory.redo m v).mem = true))) := by
  constructor
  · exact ⟨by decide, by decide, by decide, by decide⟩
  · intro m hInv
    cases hcv : m.current_version_index with
    | none => rw [historyInv, hcv] at hInv; cases hInv
    | some i =>
    rw [historyInv, hcv] at hInv
    simp only [Bool.and_eq_true, decide_eq_true_eq, Bool.not_eq_true',
      List.all_eq_true] at hInv
    obtain ⟨⟨hne, hlt⟩, hall⟩ := hInv
    have hgetv : m.version_history[i]? = some m.version_history[i] :=
      List.getElem?_eq_getElem hlt
    have hcur : ObjectMemory.current_version m =
        .ok m.version_history[i] := by
      rw [ObjectMemory.current_version, hcv, hne]
      simp [hgetv]
    have hmemv : m.version_history[i] ∈ m.version_history := by
      exact List.mem_iff_getElem.mpr ⟨i, hlt, rfl⟩
    have hcont := hall _ hmemv
    obtain ⟨F, hF⟩ := Option.isSome_iff_exists.mp hcont
    refine ⟨⟨m.version_history[i], hcur, F, ?_⟩, ?_, ?_, ?_, ?_⟩
    · simp [ObjectMemory.current_frame, ObjectMemory.frame, hcur, hF]
    · rw [ObjectMemory.derive_frame, hcur]
      simp only [genNext]
      have : dictGet m.stable_frames m.version_history[i] = some F := hF
      simp [this, MResult.isOk]
    · -- accept preserves the invariant
      intro v b
      rw [ObjectMemory.accept]
      cases hmf : dictGet m.mutable_frames v with
      | none =>
          simp only [MResult.mem, historyInv, hcv, hne, hlt]
          simp [List.all_eq_true]
          intro w hw
          exact hall w hw
      | some f =>
          simp only []
          split
          · simp only [MResult.mem, historyInv, hcv, hne, hlt]
            simp [List.all_eq_true]
            intro w hw
            exact hall w hw
          · cases hfr : MutableFrame.freeze m v with
            | fail e mm =>
                have hp := freeze_preserves m v
                rw [hfr] at hp
                simp only [MResult.mem] at hp ⊢
                rw [historyInv_congr mm m hp.1 hp.2.1 hp.2.2]
                rw [historyInv, hcv, hne]
                simp [hlt, List.all_eq_true]
                intro w hw
                exact hall w hw
            | ok m1 u =>
                have hp := freeze_preserves m v
                rw [hfr] at hp
                simp only [MResult.mem] at hp
                cases hf1 : dictGet m1.mutable_frames v with
                | none =>
                    simp only [hf1, MResult.mem]
                    rw [historyInv_congr m1 m hp.1 hp.2.1 hp.2.2]
                    rw [historyInv, hcv, hne]
                    simp [hlt, List.all_eq_true]
                    intro w hw
                    exact hall w hw
                | some f1 =>
                    cases hbs : buildStableObjects m1.heap
                        (f1.snapshots.map (fun p => p.2.1)) [] with
                    | error e =>
                        simp only [hf1, hbs, MResult.mem]
                        rw [historyInv_congr m1 m hp.1 hp.2.1 hp.2.2]
                        rw [historyInv, hcv, hne]
                        simp [hlt, List.all_eq_true]
                        intro w hw
                        exact hall w hw
                    | ok objs =>
                        have hcvi2 : m1.current_version_index = some i := by
                          rw [hp.2.1, hcv]
                        have hh2 : m1.version_history = m.version_history :=
                          hp.1
                        have hstable2 : m1.stable_frames = m.stable_frames :=
                          hp.2.2
                        have hne2 : m1.version_history.isEmpty = false := by
                          rw [hh2]; exact hne
                        have hcontall : ∀ w ∈ m.version_history,
                            dictContains (dictSet m1.stable_frames f1.version
                              ⟨f1.version, objs⟩) w = true := by
                          intro w hw
                          apply dictContains_dictSet
                          rw [hstable2]
                          exact hall w hw
                        have hcontnew : dictContains
                            (dictSet m1.stable_frames f1.version
                              ⟨f1.version, objs⟩) f1.version = true := by
                          simp [dictContains, dictGet_dictSet_self]
                        cases b with
                        | false =>
                            simp only [hf1, hbs, acceptIntegrityRecheckFires,
                              Bool.false_eq_true, if_false, MResult.mem]
                            rw [historyInv]
                            simp only [hcvi2, hh2, hne]
                            simp [hlt, List.all_eq_true]
                            intro w hw
                            exact hcontall w hw
                        | true =>
                            simp only [hf1, hbs, acceptIntegrityRecheckFires,
                              Bool.false_eq_true, if_false, if_true,
                              hcvi2, hne2, MResult.mem]
                            rw [historyInv]
                            simp only [List.length_append, List.length_take,
                              hh2]
                            have hlen : min (i + 1)
                                m.version_history.length = i + 1 := by omega
                            simp only [hlen, Bool.and_eq_true,
                              List.all_eq_true]
                            refine ⟨⟨by simp, by simp⟩, ?_⟩
                            intro w hw
                            rcases List.mem_append.mp hw with hw1 | hw2
                            · exact hcontall w (List.take_subset _ _ hw1)
                            · have hwv : w = f1.version := by simpa using hw2
                              rw [hwv]
                              exact hcontnew
    · -- undo preserves the invariant
      intro v
      rw [ObjectMemory.undo]
      cases hidx : listIndex m.version_history v with
      | none =>
          simp only [MResult.mem, historyInv, hcv, hne]
          simp [hlt, List.all_eq_true]
          intro w hw
          exact hall w hw
      | some j =>
          have hj := listIndex_lt_length m.version_history v j hidx
          simp only [MResult.mem, historyInv, hne]
          simp [hj, List.all_eq_true]
          intro w hw
          exact hall w hw
    · -- redo preserves the invariant
      intro v
      rw [ObjectMemory.redo]
      cases hidx : listIndex m.version_history v with
      | none =>
          simp only [MResult.mem, historyInv, hcv, hne]
          simp [hlt, List.all_eq_true]
          intro w hw
          exact hall w hw
      | some j =>
          have hj := listIndex_lt_length m.version_history v j hidx
          simp only [MResult.mem, historyInv, hne]
          simp [hj, List.all_eq_true]
          intro w hw
          exact hall w hw

/-- Witness for C10: the invariant part applied to the freshly constructed
memory. -/
theorem c10_bootstrap_history_invariant_witness :
    historyInv ObjectMemory.init = true ∧
    ((∃ v, ObjectMemory.current_version ObjectMemory.init = .ok v ∧
        ∃ F, ObjectMemory.current_frame ObjectMemory.init = .ok F) ∧
     (ObjectMemory.derive_frame ObjectMemory.init none none).isOk = true ∧
     (∀ v b, historyInv (ObjectMemory.accept ObjectMemory.init v b).mem
        = true) ∧
     (∀ v, historyInv (ObjectMemory.undo ObjectMemory.init v).mem = true) ∧
     (∀ v, historyInv (ObjectMemory.redo ObjectMemory.init v).mem = true)) :=
  ⟨by decide, c10_bootstrap_history_invariant.2 ObjectMemory.init (by decide)⟩

end Poietic
